import Mathlib

/-!
Verification development for the `AudioHost` component of AudioPerfLab.

The repository snapshot contains only `src/Base/AudioHost.hpp`, which declares
the class, its callbacks and its private members with their initializers
(lines 105-126), but not `AudioHost.cpp`.  The member initializers in the
header are therefore the authoritative source for the constructed state;
the bodies of `start`, `stop`, `render`, `workerThread`, `ensureMinimumLoad`
and the setters are modelled from the specification (sections 3-6), which
was written from that code.

The model has three layers:
 * `AudioHost` — a functional state machine for the host's lifecycle
   (construction, `start`, `stop`, configuration setters), with an event
   trace recording driver and pool operations;
 * `CycleState` / `Step` — a small-step transition system for one render
   cycle's worker fan-out/fan-in over the two counting semaphores, covering
   every interleaving of the driver thread and the worker threads;
 * `ensureMinimumLoad` — the busy-spin minimum-load enforcer, with the
   successive clock readings of the spin loop made explicit as a list.
-/

namespace AudioPerfLab

/-- Modelled from the spec: the mutable state of an `AudioHost` as declared in
`src/Base/AudioHost.hpp` lines 103-126.  Thread vectors are abstracted to the
number of live threads; semaphores to their counter values; the `double`
member `mMinimumLoad` to a rational.  The driver-owned preferred buffer size
is inlined as `mPreferredBufferSize`. -/
structure AudioHost where
  mProcessInDriverThread : Bool
  mIsWorkIntervalOn : Bool
  mNumFrames : ℕ
  mAreWorkerThreadsActive : Bool
  mWorkerThreads : ℕ
  mAreBusyThreadsActive : Bool
  mBusyThreads : ℕ
  mMinimumLoad : ℚ
  mStartWorkingSemaphore : ℕ
  mFinishedWorkSemaphore : ℕ
  mIsStarted : Bool
  mNumRequestedWorkerThreads : ℕ
  mNumRequestedBusyThreads : ℕ
  mPreferredBufferSize : ℕ
deriving DecidableEq

/-- Observable host-level events: driver start/stop, pool setup/teardown and
the `Setup` callback.  `teardownWorkers` records both the number of threads
joined and the number of posts made to the start-working semaphore so that
every parked worker is woken (spec section 4.1, `deactivate`). -/
inductive HostEvent
  | driverStart
  | driverStop
  | setupWorkers (numThreads : ℕ)
  | teardownWorkers (numJoined : ℕ) (numSemaphorePosts : ℕ)
  | setupBusy (numThreads : ℕ)
  | teardownBusy (numJoined : ℕ)
  | setupCallback (numWorkerThreads : ℕ)
deriving DecidableEq

/-- Recognizer for the `Setup` callback event. -/
def isSetupCallback : HostEvent → Bool
  | HostEvent.setupCallback _ => true
  | _ => false

/-- The constructed state of an `AudioHost`, from the member initializers in
`src/Base/AudioHost.hpp` lines 105-126.  The default thread counts come from
`Config.hpp` (not in the snapshot) and the driver's default buffer size from
`Driver.hpp`, so they are parameters here. -/
def mkAudioHost (kDefaultNumWorkerThreads kDefaultNumBusyThreads
    driverDefaultBufferSize : ℕ) : AudioHost :=
  { mProcessInDriverThread := true
    mIsWorkIntervalOn := false
    mNumFrames := 0
    mAreWorkerThreadsActive := false
    mWorkerThreads := 0
    mAreBusyThreadsActive := false
    mBusyThreads := 0
    mMinimumLoad := 0
    mStartWorkingSemaphore := 0
    mFinishedWorkSemaphore := 0
    mIsStarted := false
    mNumRequestedWorkerThreads := kDefaultNumWorkerThreads
    mNumRequestedBusyThreads := kDefaultNumBusyThreads
    mPreferredBufferSize := driverDefaultBufferSize }

/-- Getter `minimumLoad()`: returns the stored value. -/
def AudioHost.minimumLoad (h : AudioHost) : ℚ := h.mMinimumLoad

/-- Getter `numWorkerThreads()`: returns the requested worker-thread count. -/
def AudioHost.numWorkerThreads (h : AudioHost) : ℕ := h.mNumRequestedWorkerThreads

/-- Getter `numBusyThreads()`: returns the requested busy-thread count. -/
def AudioHost.numBusyThreads (h : AudioHost) : ℕ := h.mNumRequestedBusyThreads

/-- Getter `processInDriverThread()`. -/
def AudioHost.processInDriverThread (h : AudioHost) : Bool := h.mProcessInDriverThread

/-- Getter `isWorkIntervalOn()`. -/
def AudioHost.isWorkIntervalOn (h : AudioHost) : Bool := h.mIsWorkIntervalOn

/-- Getter `preferredBufferSize()`. -/
def AudioHost.preferredBufferSize (h : AudioHost) : ℕ := h.mPreferredBufferSize

/-- Modelled from the spec (section 3, lifecycle; section 6, `Setup`):
`start()` is a no-op when already started; otherwise it sizes and activates
both pools, invokes `Setup` with the number of worker threads actually
created, and starts the driver.  `Setup` runs after pool sizing and before
the driver is live, hence before any render cycle, and within `start()`
itself so it returns before `start()` returns. -/
def AudioHost.start (h : AudioHost) : AudioHost × List HostEvent :=
  if h.mIsStarted then (h, [])
  else
    ({ h with
        mIsStarted := true
        mAreWorkerThreadsActive := true
        mWorkerThreads := h.mNumRequestedWorkerThreads
        mAreBusyThreadsActive := true
        mBusyThreads := h.mNumRequestedBusyThreads },
     [HostEvent.setupWorkers h.mNumRequestedWorkerThreads,
      HostEvent.setupBusy h.mNumRequestedBusyThreads,
      HostEvent.setupCallback h.mNumRequestedWorkerThreads,
      HostEvent.driverStart])

/-- Modelled from the spec (section 3, lifecycle; section 5, cancellation):
`stop()` is a no-op when already stopped; otherwise it disables the driver
first (no further callbacks), then tears down the worker pool — posting the
start-working semaphore once per thread so every parked worker wakes, then
joining all of them — and then the busy pool. -/
def AudioHost.stop (h : AudioHost) : AudioHost × List HostEvent :=
  if h.mIsStarted then
    ({ h with
        mIsStarted := false
        mAreWorkerThreadsActive := false
        mWorkerThreads := 0
        mAreBusyThreadsActive := false
        mBusyThreads := 0 },
     [HostEvent.driverStop,
      HostEvent.teardownWorkers h.mWorkerThreads h.mWorkerThreads,
      HostEvent.teardownBusy h.mBusyThreads])
  else (h, [])

/-- Modelled from the spec (section 4.5): run a mutation with the host
stopped — stop if running, apply, restart if it was running. -/
def AudioHost.whileStopped (h : AudioHost) (f : AudioHost → AudioHost) :
    AudioHost × List HostEvent :=
  if h.mIsStarted then
    let s := h.stop
    let r := (f s.1).start
    (r.1, s.2 ++ r.2)
  else (f h, [])

/-- Modelled from the spec (sections 4.5 and 8): topology setter for the
worker-thread count; re-setting the current value causes no thread churn. -/
def AudioHost.setNumWorkerThreads (h : AudioHost) (n : ℕ) :
    AudioHost × List HostEvent :=
  if n = h.mNumRequestedWorkerThreads then (h, [])
  else h.whileStopped (fun g => { g with mNumRequestedWorkerThreads := n })

/-- Modelled from the spec (sections 4.5 and 8): topology setter for the
busy-thread count. -/
def AudioHost.setNumBusyThreads (h : AudioHost) (n : ℕ) :
    AudioHost × List HostEvent :=
  if n = h.mNumRequestedBusyThreads then (h, [])
  else h.whileStopped (fun g => { g with mNumRequestedBusyThreads := n })

/-- Modelled from the spec (sections 4.5 and 8): topology setter for the
preferred buffer size, forwarded to the owned driver. -/
def AudioHost.setPreferredBufferSize (h : AudioHost) (n : ℕ) :
    AudioHost × List HostEvent :=
  if n = h.mPreferredBufferSize then (h, [])
  else h.whileStopped (fun g => { g with mPreferredBufferSize := n })

/-- Modelled from the spec (sections 4.5 and 8): topology setter for the
work-interval flag, stored and forwarded to the driver. -/
def AudioHost.setIsWorkIntervalOn (h : AudioHost) (b : Bool) :
    AudioHost × List HostEvent :=
  if b = h.mIsWorkIntervalOn then (h, [])
  else h.whileStopped (fun g => { g with mIsWorkIntervalOn := b })

/-- Modelled from the spec (section 6): `processInDriverThread` is stored in
an atomic and applies immediately, without stopping. -/
def AudioHost.setProcessInDriverThread (h : AudioHost) (b : Bool) :
    AudioHost × List HostEvent :=
  ({ h with mProcessInDriverThread := b }, [])

/-- Modelled from the spec (section 4.3): the clamp applied by
`setMinimumLoad`, in the `std::min(std::max(x, 0), 1)` shape. -/
def clampMinimumLoad (x : ℚ) : ℚ := min 1 (max 0 x)

/-- Modelled from the spec (sections 4.3 and 4.5): `setMinimumLoad` stores
the clamped value into the atomic immediately, with no driver or pool
churn. -/
def AudioHost.setMinimumLoad (h : AudioHost) (x : ℚ) :
    AudioHost × List HostEvent :=
  ({ h with mMinimumLoad := clampMinimumLoad x }, [])

/-- Status of one worker thread within one render cycle: parked on the
start-working semaphore, executing `Process`, about to post the
finished-work semaphore, or done for this cycle. -/
inductive WStatus
  | waiting
  | processing
  | signaling
  | done
deriving DecidableEq

/-- Observable events of one render cycle, in trace order: the recorded
buffer start time, the `RenderStarted` callback, semaphore operations,
`Process` invocations, the minimum-load enforcer and `RenderEnded`. -/
inductive REvent
  | recordTime (bufferStartTime : ℕ)
  | renderStarted (numFrames : ℕ)
  | releaseStart
  | process (threadIndex : ℕ) (numFrames : ℕ)
  | releaseFinished
  | acquireFinished
  | minLoad (bufferStartTime : ℕ) (numFrames : ℕ)
  | renderEnded (hostTime : ℕ) (numFrames : ℕ)
deriving DecidableEq

/-- Recognizer for `Process` invocation events. -/
def isProcessEvent : REvent → Bool
  | REvent.process _ _ => true
  | _ => false

/-- Recognizer for the fan-out/fan-in events of the worker rendezvous. -/
def isFanEvent : REvent → Bool
  | REvent.releaseStart => true
  | REvent.process _ _ => true
  | REvent.releaseFinished => true
  | REvent.acquireFinished => true
  | _ => false

/-- The `noErr` status returned to the driver by a successful render. -/
def noErr : Int := 0

/-- Parameters of one render cycle: the worker-pool size, the frame count of
the cycle, the recorded buffer start time and the driver-supplied host
time. -/
structure RParams where
  n : ℕ
  nf : ℕ
  t0 : ℕ
  ht : ℕ

/-- Modelled from the spec (sections 4.1 and 4.2): the shared state of one
render cycle with the worker pool, as seen by the driver thread and the `n`
worker threads.  `workers` holds each worker's status, `released`/`acquired`
count the driver's semaphore operations, `startSem`/`finishedSem` are the two
counting semaphores, `ended` records that `RenderEnded` has run, `result` the
status returned to the driver, and `trace` the events so far. -/
structure CycleState where
  workers : List WStatus
  released : ℕ
  acquired : ℕ
  startSem : ℕ
  finishedSem : ℕ
  ended : Bool
  result : Option Int
  trace : List REvent
deriving DecidableEq

/-- The state at entry to `render` on the worker-pool path: the buffer start
time has been recorded and `RenderStarted` invoked; all `n` workers are
parked on the start-working semaphore and both semaphores are at zero. -/
def CycleState.init (p : RParams) : CycleState :=
  { workers := List.replicate p.n WStatus.waiting
    released := 0
    acquired := 0
    startSem := 0
    finishedSem := 0
    ended := false
    result := none
    trace := [REvent.recordTime p.t0, REvent.renderStarted p.nf] }

/-- Modelled from the spec (sections 4.1, 4.2 and 5): one interleaved step of
the render cycle.  The driver posts the start-working semaphore `n` times,
then performs `n` blocking waits on the finished-work semaphore, then runs
the minimum-load enforcer with the recorded start time and invokes
`RenderEnded` and returns `noErr`.  Each worker, independently: consumes one
start token, invokes `Process` with its own fixed index, and posts the
finished-work semaphore. -/
inductive Step (p : RParams) : CycleState → CycleState → Prop
  | dRelease (s : CycleState) (hr : s.released < p.n) (he : s.ended = false) :
      Step p s { s with
        released := s.released + 1
        startSem := s.startSem + 1
        trace := s.trace ++ [REvent.releaseStart] }
  | wWake (s : CycleState) (i : ℕ)
      (hi : s.workers[i]? = some WStatus.waiting) (hs : 0 < s.startSem) :
      Step p s { s with
        workers := s.workers.set i WStatus.processing
        startSem := s.startSem - 1 }
  | wProcess (s : CycleState) (i : ℕ)
      (hi : s.workers[i]? = some WStatus.processing) :
      Step p s { s with
        workers := s.workers.set i WStatus.signaling
        trace := s.trace ++ [REvent.process i p.nf] }
  | wSignal (s : CycleState) (i : ℕ)
      (hi : s.workers[i]? = some WStatus.signaling) :
      Step p s { s with
        workers := s.workers.set i WStatus.done
        finishedSem := s.finishedSem + 1
        trace := s.trace ++ [REvent.releaseFinished] }
  | dAcquire (s : CycleState) (hr : s.released = p.n) (ha : s.acquired < p.n)
      (hf : 0 < s.finishedSem) :
      Step p s { s with
        acquired := s.acquired + 1
        finishedSem := s.finishedSem - 1
        trace := s.trace ++ [REvent.acquireFinished] }
  | dEnd (s : CycleState) (ha : s.acquired = p.n) (he : s.ended = false) :
      Step p s { s with
        ended := true
        result := some noErr
        trace := s.trace ++ [REvent.minLoad p.t0 p.nf, REvent.renderEnded p.ht p.nf] }

/-- Reachability of a cycle state from the cycle's initial state. -/
def Reach (p : RParams) (s : CycleState) : Prop :=
  Relation.ReflTransGen (Step p) (CycleState.init p) s

/-- Modelled from the spec (section 4.2, step 3): whether `render` processes
on the driver thread — either because `mProcessInDriverThread` is set or
because the worker pool is empty, so that a cycle never silently performs no
`Process` invocation. -/
def AudioHost.renderUsesDriverThread (h : AudioHost) : Bool :=
  h.mProcessInDriverThread || decide (h.mWorkerThreads = 0)

/-- Modelled from the spec (section 4.2): the driver-thread branch of
`render` as a straight-line trace — record the start time, `RenderStarted`,
one `Process` on the calling thread, the minimum-load enforcer with the
recorded time, `RenderEnded`, and a `noErr` return. -/
def renderDriverThread (p : RParams) : Int × List REvent :=
  (noErr,
   [REvent.recordTime p.t0, REvent.renderStarted p.nf, REvent.process 0 p.nf,
    REvent.minLoad p.t0 p.nf, REvent.renderEnded p.ht p.nf])

/-- Counting after a point update: setting index `i` (which holds `u`) to `v`
trades one occurrence of `u` for one of `v`. -/
theorem count_set_add {α : Type} [DecidableEq α] :
    ∀ (l : List α) (i : ℕ) (v a : α), i < l.length →
      (l.set i v).count a + (if l[i]? = some a then 1 else 0)
        = l.count a + (if v = a then 1 else 0)
  | [], i, v, a, h => by simp at h
  | x :: xs, 0, v, a, _ => by
      simp only [List.set_cons_zero, List.count_cons, List.getElem?_cons_zero,
        beq_iff_eq, Option.some.injEq]
      split_ifs <;> simp_all <;> omega
  | x :: xs, i + 1, v, a, h => by
      have ih := count_set_add xs i v a (by simpa using h)
      simp only [List.set_cons_succ, List.count_cons, List.getElem?_cons_succ,
        beq_iff_eq]
      split_ifs <;> simp_all <;> omega

/-- Every worker is in exactly one of the four statuses. -/
theorem wstatus_count_total (l : List WStatus) :
    l.count WStatus.waiting + l.count WStatus.processing
      + l.count WStatus.signaling + l.count WStatus.done = l.length := by
  induction l with
  | nil => simp
  | cons x xs ih => cases x <;> simp [List.count_cons] <;> omega

/-- Invariant of the render-cycle transition system, relating the semaphore
counters, the per-worker statuses and the event trace. -/
structure Inv (p : RParams) (s : CycleState) : Prop where
  hlen : s.workers.length = p.n
  hrel : s.released ≤ p.n
  hacq : s.acquired ≤ p.n
  hsem : s.startSem + s.workers.count WStatus.processing
      + s.workers.count WStatus.signaling + s.workers.count WStatus.done
      = s.released
  hfin : s.finishedSem + s.acquired = s.workers.count WStatus.done
  hend : s.ended = true → s.acquired = p.n
  hres : s.result = if s.ended then some noErr else none
  hproc : ∀ i, i < p.n →
    s.trace.count (REvent.process i p.nf)
      = if s.workers[i]? = some WStatus.signaling
          ∨ s.workers[i]? = some WStatus.done then 1 else 0
  hproc0 : ∀ j, p.n ≤ j → s.trace.count (REvent.process j p.nf) = 0
  hptot : s.trace.countP isProcessEvent
      = s.workers.count WStatus.signaling + s.workers.count WStatus.done
  hrs : s.trace.count REvent.releaseStart = s.released
  hrf : s.trace.count REvent.releaseFinished = s.workers.count WStatus.done
  haf : s.trace.count REvent.acquireFinished = s.acquired
  hshape : ∃ m, (∀ e ∈ m, isFanEvent e = true) ∧
    s.trace = REvent.recordTime p.t0 :: REvent.renderStarted p.nf :: m
      ++ (if s.ended then
            [REvent.minLoad p.t0 p.nf, REvent.renderEnded p.ht p.nf] else [])

/-- The initial cycle state satisfies the invariant. -/
theorem inv_init (p : RParams) : Inv p (CycleState.init p) := by
  refine ⟨?_, ?_, ?_, ?_, ?_, ?_, ?_, ?_, ?_, ?_, ?_, ?_, ?_, ?_⟩ <;>
    simp [CycleState.init, List.count_replicate] <;>
    first
      | rfl
      | exact ⟨rfl, rfl⟩
      | exact ⟨[], by simp, by simp⟩
      | (intro i _ <;> simp [List.getElem?_replicate] <;> split <;> simp_all)

/-- In a pool whose every member is done, any defined entry is done. -/
theorem status_done_of_full {l : List WStatus} (h : l.count WStatus.done = l.length)
    {i : ℕ} {u : WStatus} (hi : l[i]? = some u) : u = WStatus.done :=
  ((List.count_eq_length.mp h) u (List.getElem?_mem hi)).symm

/-- The invariant is preserved by every step of the cycle. -/
theorem inv_step {p : RParams} {s s' : CycleState} (inv : Inv p s)
    (st : Step p s s') : Inv p s' := by
  obtain ⟨hlen, hrel, hacq, hsem, hfin, hend, hres, hproc, hproc0, hptot,
    hrs, hrf, haf, hshape⟩ := inv
  obtain ⟨m, hm, htr⟩ := hshape
  cases st with
  | dRelease hr he =>
    refine ⟨hlen, by dsimp; omega, hacq, by dsimp; omega, hfin, hend, hres, ?_, ?_, ?_,
      ?_, ?_, ?_, ?_⟩
    · intro i hi
      simpa [List.count_append] using hproc i hi
    · intro j hj
      simpa [List.count_append] using hproc0 j hj
    · simpa [List.countP_append, isProcessEvent] using hptot
    · dsimp
      simp [List.count_append, hrs]
    · simpa [List.count_append] using hrf
    · simpa [List.count_append] using haf
    · refine ⟨m ++ [REvent.releaseStart], ?_, ?_⟩
      · intro e hme
        rcases List.mem_append.mp hme with h | h
        · exact hm e h
        · simp at h
          subst h
          rfl
      · dsimp
        simp [htr, he]
  | wWake i hi hs =>
    obtain ⟨hir, -⟩ := List.getElem?_eq_some.mp hi
    have e1 := count_set_add s.workers i WStatus.processing WStatus.processing hir
    have e2 := count_set_add s.workers i WStatus.processing WStatus.signaling hir
    have e3 := count_set_add s.workers i WStatus.processing WStatus.done hir
    simp [hi] at e1 e2 e3
    refine ⟨by simpa using hlen, hrel, hacq, by dsimp; omega, by dsimp; omega,
      hend, hres, ?_, hproc0, by dsimp; omega, hrs, by dsimp; omega, haf,
      ⟨m, hm, htr⟩⟩
    intro j hj
    dsimp
    rcases eq_or_ne i j with hij | hij
    · subst hij
      rw [List.getElem?_set_self hir]
      simpa [hi] using hproc i hj
    · rw [List.getElem?_set_ne hij]
      exact hproc j hj
  | wProcess i hi =>
    obtain ⟨hir, -⟩ := List.getElem?_eq_some.mp hi
    have hin : i < p.n := by omega
    have e1 := count_set_add s.workers i WStatus.signaling WStatus.processing hir
    have e2 := count_set_add s.workers i WStatus.signaling WStatus.signaling hir
    have e3 := count_set_add s.workers i WStatus.signaling WStatus.done hir
    simp [hi] at e1 e2 e3
    refine ⟨by simpa using hlen, hrel, hacq, by dsimp; omega, by dsimp; omega,
      hend, hres, ?_, ?_, ?_, ?_, ?_, ?_, ?_⟩
    · intro j hj
      dsimp
      rcases eq_or_ne i j with hij | hij
      · subst hij
        rw [List.getElem?_set_self hir]
        have := hproc i hj
        simp [hi] at this
        simp [List.count_append, this]
      · rw [List.getElem?_set_ne hij]
        have := hproc j hj
        simp [List.count_append, List.count_cons, REvent.process.injEq,
          Ne.symm hij, this]
    · intro j hj
      have hji : j ≠ i := by omega
      simp [List.count_append, List.count_cons, REvent.process.injEq, hji,
        hproc0 j hj]
    · dsimp
      simp [List.countP_append, isProcessEvent]
      omega
    · simpa [List.count_append] using hrs
    · dsimp
      simp [List.count_append, e3, hrf]
    · simpa [List.count_append] using haf
    · by_cases hse : s.ended = true
      · have hn := hend hse
        have hle := List.count_le_length WStatus.done s.workers
        have hfull : s.workers.count WStatus.done = s.workers.length := by omega
        exact absurd (status_done_of_full hfull hi) (by simp)
      · simp only [Bool.not_eq_true] at hse
        refine ⟨m ++ [REvent.process i p.nf], ?_, ?_⟩
        · intro e hme
          rcases List.mem_append.mp hme with h | h
          · exact hm e h
          · simp at h
            subst h
            rfl
        · dsimp
          simp [htr, hse]
  | wSignal i hi =>
    obtain ⟨hir, -⟩ := List.getElem?_eq_some.mp hi
    have e1 := count_set_add s.workers i WStatus.done WStatus.processing hir
    have e2 := count_set_add s.workers i WStatus.done WStatus.signaling hir
    have e3 := count_set_add s.workers i WStatus.done WStatus.done hir
    simp [hi] at e1 e2 e3
    refine ⟨by simpa using hlen, hrel, hacq, by dsimp; omega, by dsimp; omega,
      hend, hres, ?_, ?_, ?_, ?_, ?_, ?_, ?_⟩
    · intro j hj
      dsimp
      rcases eq_or_ne i j with hij | hij
      · subst hij
        rw [List.getElem?_set_self hir]
        have := hproc i hj
        simp [hi] at this
        simp [List.count_append, this]
      · rw [List.getElem?_set_ne hij]
        simpa [List.count_append] using hproc j hj
    · intro j hj
      simpa [List.count_append] using hproc0 j hj
    · dsimp
      simp [List.countP_append, isProcessEvent]
      omega
    · simpa [List.count_append] using hrs
    · dsimp
      simp [List.count_append]
      omega
    · simpa [List.count_append] using haf
    · by_cases hse : s.ended = true
      · have hn := hend hse
        have hle := List.count_le_length WStatus.done s.workers
        have hfull : s.workers.count WStatus.done = s.workers.length := by omega
        exact absurd (status_done_of_full hfull hi) (by simp)
      · simp only [Bool.not_eq_true] at hse
        refine ⟨m ++ [REvent.releaseFinished], ?_, ?_⟩
        · intro e hme
          rcases List.mem_append.mp hme with h | h
          · exact hm e h
          · simp at h
            subst h
            rfl
        · dsimp
          simp [htr, hse]
  | dAcquire hr ha hf =>
    refine ⟨hlen, hrel, by dsimp; omega, by dsimp; omega, by dsimp; omega, ?_, hres,
      ?_, ?_, ?_, ?_, ?_, ?_, ?_⟩
    · intro hse
      have := hend hse
      omega
    · intro j hj
      simpa [List.count_append] using hproc j hj
    · intro j hj
      simpa [List.count_append] using hproc0 j hj
    · simpa [List.countP_append, isProcessEvent] using hptot
    · simpa [List.count_append] using hrs
    · simpa [List.count_append] using hrf
    · dsimp
      simp [List.count_append, haf]
    · by_cases hse : s.ended = true
      · have := hend hse
        omega
      · simp only [Bool.not_eq_true] at hse
        refine ⟨m ++ [REvent.acquireFinished], ?_, ?_⟩
        · intro e hme
          rcases List.mem_append.mp hme with h | h
          · exact hm e h
          · simp at h
            subst h
            rfl
        · dsimp
          simp [htr, hse]
  | dEnd ha he =>
    refine ⟨hlen, hrel, hacq, by dsimp; omega, by dsimp; omega, fun _ => ha,
      by simp, ?_, ?_, ?_, ?_, ?_, ?_, ?_⟩
    · intro j hj
      simpa [List.count_append] using hproc j hj
    · intro j hj
      simpa [List.count_append] using hproc0 j hj
    · simpa [List.countP_append, isProcessEvent] using hptot
    · simpa [List.count_append] using hrs
    · simpa [List.count_append] using hrf
    · simpa [List.count_append] using haf
    · refine ⟨m, hm, ?_⟩
      dsimp
      simp [htr, he]

/-- Every reachable state of the render cycle satisfies the invariant. -/
theorem reach_inv {p : RParams} {s : CycleState} (h : Reach p s) : Inv p s := by
  induction h with
  | refl => exact inv_init p
  | tail _ hstep ih => exact inv_step ih hstep

/-- Consequences of the invariant once the cycle has ended: every worker is
done, the driver released and acquired exactly `n` tokens, and both
semaphores are back to zero. -/
theorem ended_state {p : RParams} {s : CycleState} (inv : Inv p s)
    (he : s.ended = true) :
    s.workers.count WStatus.done = p.n ∧ s.released = p.n ∧ s.startSem = 0 ∧
      s.finishedSem = 0 ∧ s.acquired = p.n ∧
      ∀ i, i < p.n → s.workers[i]? = some WStatus.done := by
  have hn := inv.hend he
  have hle := List.count_le_length WStatus.done s.workers
  have hlen := inv.hlen
  have hfin := inv.hfin
  have hsem := inv.hsem
  have hrel := inv.hrel
  have hcd : s.workers.count WStatus.done = p.n := by omega
  refine ⟨hcd, by omega, by omega, by omega, hn, ?_⟩
  intro i hi
  have hir : i < s.workers.length := by omega
  have hgi : s.workers[i]? = some (s.workers[i]) := List.getElem?_eq_getElem hir
  have hfull : s.workers.count WStatus.done = s.workers.length := by omega
  rw [hgi, status_done_of_full hfull hgi]

/-- Modelled from the spec (section 4.3): the padded target duration,
`minimumLoad × (numFrames / sampleRate)`. -/
def minimumLoadTarget (minimumLoad sampleRate : ℚ) (numFrames : ℕ) : ℚ :=
  minimumLoad * (numFrames / sampleRate)

/-- Modelled from the spec (section 4.3): the busy-spin loop of the
minimum-load enforcer.  `clock` lists the successive `Clock::now()` readings
observed by the loop; the result is the number of spin iterations performed.
The loop recomputes the elapsed time each iteration and never sleeps. -/
def spinIterations (bufferStartTime target : ℚ) : List ℚ → ℕ
  | [] => 0
  | now :: rest =>
      if now - bufferStartTime < target then
        spinIterations bufferStartTime target rest + 1
      else 0

/-- Modelled from the spec (section 4.3): `ensureMinimumLoad`, run once per
cycle with the recorded buffer start time and the frame count — a no-op when
`minimumLoad ≤ 0`, otherwise a busy-spin until elapsed ≥ target. -/
def ensureMinimumLoad (minimumLoad sampleRate bufferStartTime : ℚ)
    (numFrames : ℕ) (clock : List ℚ) : ℕ :=
  if minimumLoad ≤ 0 then 0
  else
    spinIterations bufferStartTime
      (minimumLoadTarget minimumLoad sampleRate numFrames) clock

/-- The spin loop exits exactly at the first clock reading whose elapsed time
meets the target: every earlier reading was below the target. -/
theorem spinIterations_exit (t0 target : ℚ) :
    ∀ clock : List ℚ, (∃ t ∈ clock, target ≤ t - t0) →
      ∃ t, clock[spinIterations t0 target clock]? = some t ∧
        target ≤ t - t0 ∧
        ∀ j, j < spinIterations t0 target clock →
          ∃ u, clock[j]? = some u ∧ u - t0 < target
  | [], h => absurd h (by simp)
  | c :: cs, h => by
      by_cases hc : c - t0 < target
      · have h' : ∃ t ∈ cs, target ≤ t - t0 := by
          obtain ⟨t, ht, htt⟩ := h
          rcases List.mem_cons.mp ht with rfl | hmem
          · exact absurd htt (by linarith)
          · exact ⟨t, hmem, htt⟩
        obtain ⟨t, hget, htt, hbefore⟩ := spinIterations_exit t0 target cs h'
        refine ⟨t, ?_, htt, ?_⟩
        · simpa [spinIterations, hc] using hget
        · intro j hj
          cases j with
          | zero => exact ⟨c, by simp, hc⟩
          | succ j' =>
            have hj' : j' < spinIterations t0 target cs := by
              simp [spinIterations, hc] at hj
              omega
            obtain ⟨u, hu, huu⟩ := hbefore j' hj'
            exact ⟨u, by simpa using hu, huu⟩
      · refine ⟨c, by simp [spinIterations, hc], by linarith, ?_⟩
        intro j hj
        simp [spinIterations, hc] at hj

/-- C1: for every render cycle executed with `n ≥ 1` active worker threads
and `processInDriverThread` false, a completed cycle has invoked `Process`
exactly `n` times, the thread indices of those invocations forming the set
`{0, …, n-1}` with each index occurring exactly once, and has performed
exactly `n` releases of the start-working semaphore matched by exactly `n`
releases of the finished-work semaphore. -/
theorem render_cycle_process_counts (h : AudioHost) (p : RParams)
    (hp : h.processInDriverThread = false) (hn : 1 ≤ h.mWorkerThreads)
    (hpn : p.n = h.mWorkerThreads) {s : CycleState} (hr : Reach p s)
    (he : s.ended = true) :
    (∀ i, i < p.n → s.trace.count (REvent.process i p.nf) = 1) ∧
    (∀ j, p.n ≤ j → s.trace.count (REvent.process j p.nf) = 0) ∧
    s.trace.countP isProcessEvent = p.n ∧
    s.trace.count REvent.releaseStart = p.n ∧
    s.trace.count REvent.releaseFinished = p.n := by
  have inv := reach_inv hr
  obtain ⟨hcd, hrel, hss, hfs, hacq, hall⟩ := ended_state inv he
  refine ⟨?_, inv.hproc0, ?_, ?_, ?_⟩
  · intro i hi
    rw [inv.hproc i hi, hall i hi]
    simp
  · have hsem := inv.hsem
    have hptot := inv.hptot
    omega
  · rw [inv.hrs, hrel]
  · rw [inv.hrf, hcd]

/-- C2: in every render cycle, `RenderEnded` is never invoked before all of
the cycle's `Process` invocations have returned — whenever the `RenderEnded`
event is in a reachable trace, it is the last event and every `Process`
event of the cycle precedes it. -/
theorem render_ended_after_all_process (p : RParams) {s : CycleState}
    (hr : Reach p s) (hmem : REvent.renderEnded p.ht p.nf ∈ s.trace) :
    ∃ pre, s.trace = pre ++ [REvent.renderEnded p.ht p.nf] ∧
      ∀ i, i < p.n → REvent.process i p.nf ∈ pre := by
  have inv := reach_inv hr
  obtain ⟨m, hm, htr⟩ := inv.hshape
  by_cases hse : s.ended = true
  · obtain ⟨hcd, -, -, -, -, hall⟩ := ended_state inv hse
    have htr2 : s.trace
        = (REvent.recordTime p.t0 :: REvent.renderStarted p.nf :: m
            ++ [REvent.minLoad p.t0 p.nf]) ++ [REvent.renderEnded p.ht p.nf] := by
      rw [htr]
      simp [hse]
    refine ⟨_, htr2, ?_⟩
    intro i hi
    have hc := inv.hproc i hi
    rw [hall i hi] at hc
    simp at hc
    have hmm : REvent.process i p.nf ∈ s.trace :=
      List.count_pos_iff.mp (by rw [hc]; norm_num)
    rw [htr2] at hmm
    rcases List.mem_append.mp hmm with hpre | hlast
    · exact hpre
    · simp at hlast
  · exfalso
    simp only [Bool.not_eq_true] at hse
    rw [htr] at hmem
    simp [hse] at hmem
    have := hm _ hmem
    simp [isFanEvent] at this

/-- C3: every completed render cycle executes exactly the sequence — record
the buffer start time, invoke `RenderStarted(numFrames)`, then either the
driver-thread `Process` invocation or the worker fan-out/fan-in, then the
minimum-load enforcer with the recorded start time and `numFrames`, then
`RenderEnded(outputBuffer, hostTime, numFrames)`, and finally return a
success status (`noErr`) to the driver. -/
theorem render_cycle_sequence (p : RParams) :
    (renderDriverThread p
      = (noErr, [REvent.recordTime p.t0, REvent.renderStarted p.nf,
          REvent.process 0 p.nf, REvent.minLoad p.t0 p.nf,
          REvent.renderEnded p.ht p.nf])) ∧
    (∀ s : CycleState, Reach p s → s.ended = true →
      ∃ m, (∀ e ∈ m, isFanEvent e = true) ∧
        s.trace = REvent.recordTime p.t0 :: REvent.renderStarted p.nf :: m
          ++ [REvent.minLoad p.t0 p.nf, REvent.renderEnded p.ht p.nf] ∧
        s.result = some noErr) := by
  refine ⟨rfl, ?_⟩
  intro s hr he
  have inv := reach_inv hr
  obtain ⟨m, hm, htr⟩ := inv.hshape
  refine ⟨m, hm, ?_, ?_⟩
  · rw [htr]
    simp [he]
  · rw [inv.hres, he]
    simp

/-- C4: a call to `start()` from the stopped state invokes the `Setup`
callback exactly once, after the worker pool has been sized and before the
driver starts (hence before any render cycle), with an argument equal to the
number of worker threads actually created; the callback is part of
`start()`'s own event sequence, so it returns before `start()` returns. -/
theorem start_invokes_setup_once (h : AudioHost) (hs : h.mIsStarted = false) :
    (h.start).2 = [HostEvent.setupWorkers h.mNumRequestedWorkerThreads,
      HostEvent.setupBusy h.mNumRequestedBusyThreads,
      HostEvent.setupCallback h.mNumRequestedWorkerThreads,
      HostEvent.driverStart] ∧
    (h.start).2.countP isSetupCallback = 1 ∧
    (h.start).1.mWorkerThreads = h.mNumRequestedWorkerThreads ∧
    (h.start).1.mIsStarted = true := by
  simp [AudioHost.start, hs, isSetupCallback]

/-- C5: `setMinimumLoad(x)` stores `x` clamped to `[0,1]`, so the getter
`minimumLoad()` afterwards returns `max 0 (min 1 x)`; the setter emits no
driver or pool events and leaves the run state and both pools untouched,
applying immediately without a stop/restart. -/
theorem setMinimumLoad_clamps (h : AudioHost) (x : ℚ) :
    (h.setMinimumLoad x).1.minimumLoad = max 0 (min 1 x) ∧
    (h.setMinimumLoad x).2 = [] ∧
    (h.setMinimumLoad x).1.mIsStarted = h.mIsStarted ∧
    (h.setMinimumLoad x).1.mWorkerThreads = h.mWorkerThreads ∧
    (h.setMinimumLoad x).1.mBusyThreads = h.mBusyThreads := by
  refine ⟨?_, rfl, rfl, rfl, rfl⟩
  show clampMinimumLoad x = max 0 (min 1 x)
  unfold clampMinimumLoad
  rw [min_max_distrib_left]
  norm_num

/-- C6: the minimum-load enforcer is a no-op when `minimumLoad ≤ 0` or when
the first clock reading shows the elapsed time already at or past
`minimumLoad × (numFrames / sampleRate)`; otherwise it busy-spins,
recomputing the elapsed time at each reading, and returns exactly at the
first reading whose elapsed time meets the target — every earlier reading
was still below it, so real processing is never shortened. -/
theorem ensureMinimumLoad_spec (ml sr t0 : ℚ) (nf : ℕ) (clock : List ℚ) :
    (ml ≤ 0 → ensureMinimumLoad ml sr t0 nf clock = 0) ∧
    (∀ t rest, clock = t :: rest → minimumLoadTarget ml sr nf ≤ t - t0 →
      ensureMinimumLoad ml sr t0 nf clock = 0) ∧
    (0 < ml → (∃ t ∈ clock, minimumLoadTarget ml sr nf ≤ t - t0) →
      ∃ t, clock[ensureMinimumLoad ml sr t0 nf clock]? = some t ∧
        minimumLoadTarget ml sr nf ≤ t - t0 ∧
        ∀ j, j < ensureMinimumLoad ml sr t0 nf clock →
          ∃ u, clock[j]? = some u ∧ u - t0 < minimumLoadTarget ml sr nf) := by
  refine ⟨?_, ?_, ?_⟩
  · intro hml
    simp [ensureMinimumLoad, hml]
  · intro t rest hcl htt
    by_cases hml : ml ≤ 0
    · simp [ensureMinimumLoad, hml]
    · subst hcl
      simp [ensureMinimumLoad, hml, spinIterations, not_lt.mpr htt]
  · intro hml hex
    have hnle : ¬ ml ≤ 0 := not_le.mpr hml
    simpa [ensureMinimumLoad, hnle] using
      spinIterations_exit t0 (minimumLoadTarget ml sr nf) clock hex

/-- C7: after a completed `stop()`, no worker and no busy thread remains
alive and both pools are inactive; from the started state, `stop()` disables
the driver first and then tears down both pools, the worker teardown joining
every thread after posting the start-working semaphore once per thread so
that no thread stays blocked on it. -/
theorem stop_joins_all (h : AudioHost)
    (hinv : h.mIsStarted = false → h.mWorkerThreads = 0 ∧ h.mBusyThreads = 0
      ∧ h.mAreWorkerThreadsActive = false ∧ h.mAreBusyThreadsActive = false) :
    (h.stop).1.mWorkerThreads = 0 ∧ (h.stop).1.mBusyThreads = 0 ∧
    (h.stop).1.mAreWorkerThreadsActive = false ∧
    (h.stop).1.mAreBusyThreadsActive = false ∧
    (h.stop).1.mIsStarted = false ∧
    (h.mIsStarted = true →
      (h.stop).2 = [HostEvent.driverStop,
        HostEvent.teardownWorkers h.mWorkerThreads h.mWorkerThreads,
        HostEvent.teardownBusy h.mBusyThreads]) := by
  by_cases hs : h.mIsStarted = true
  · simp [AudioHost.stop, hs]
  · simp only [Bool.not_eq_true] at hs
    obtain ⟨h1, h2, h3, h4⟩ := hinv hs
    simp [AudioHost.stop, hs, h1, h2, h3, h4]

/-- C8: `start()` and `stop()` are idempotent — a second consecutive
`stop()` is a no-op, `start()` while started is a no-op — and re-setting any
topology value (worker count, busy count, buffer size, work-interval flag)
to its current value changes nothing and causes no thread teardown or
recreation. -/
theorem start_stop_idempotent (h : AudioHost) :
    (h.stop).1.stop = ((h.stop).1, []) ∧
    (h.mIsStarted = false → h.stop = (h, [])) ∧
    (h.mIsStarted = true → h.start = (h, [])) ∧
    h.setNumWorkerThreads h.mNumRequestedWorkerThreads = (h, []) ∧
    h.setNumBusyThreads h.mNumRequestedBusyThreads = (h, []) ∧
    h.setPreferredBufferSize h.mPreferredBufferSize = (h, []) ∧
    h.setIsWorkIntervalOn h.mIsWorkIntervalOn = (h, []) := by
  refine ⟨?_, ?_, ?_, ?_, ?_, ?_, ?_⟩
  · by_cases hs : h.mIsStarted = true <;> simp [AudioHost.stop, hs]
  · intro hs
    simp [AudioHost.stop, hs]
  · intro hs
    simp [AudioHost.start, hs]
  · simp [AudioHost.setNumWorkerThreads]
  · simp [AudioHost.setNumBusyThreads]
  · simp [AudioHost.setPreferredBufferSize]
  · simp [AudioHost.setIsWorkIntervalOn]

/-- C9: starting with a worker count of zero and `processInDriverThread`
false does not silently lose processing: the started host routes every
render cycle to the driver-thread branch, whose cycle performs exactly one
`Process` invocation — never zero. -/
theorem start_zero_workers_forces_driver (h : AudioHost)
    (hw : h.mNumRequestedWorkerThreads = 0)
    (hp : h.mProcessInDriverThread = false) (hs : h.mIsStarted = false) :
    (h.start).1.renderUsesDriverThread = true ∧
    ∀ p : RParams, ((renderDriverThread p).2.countP isProcessEvent = 1) := by
  constructor
  · simp [AudioHost.start, hs, AudioHost.renderUsesDriverThread, hw]
  · intro p
    simp [renderDriverThread, isProcessEvent]

/-- C10: immediately after construction an `AudioHost` is stopped with the
defaults of its member initializers — `processInDriverThread` true,
`isWorkIntervalOn` false, `minimumLoad` 0, stored frame count 0, both pools
inactive with no threads — and each getter returns the corresponding
default. -/
theorem mkAudioHost_defaults (dw db dbs : ℕ) :
    (mkAudioHost dw db dbs).mIsStarted = false ∧
    (mkAudioHost dw db dbs).processInDriverThread = true ∧
    (mkAudioHost dw db dbs).isWorkIntervalOn = false ∧
    (mkAudioHost dw db dbs).minimumLoad = 0 ∧
    (mkAudioHost dw db dbs).mNumFrames = 0 ∧
    (mkAudioHost dw db dbs).mAreWorkerThreadsActive = false ∧
    (mkAudioHost dw db dbs).mWorkerThreads = 0 ∧
    (mkAudioHost dw db dbs).mAreBusyThreadsActive = false ∧
    (mkAudioHost dw db dbs).mBusyThreads = 0 ∧
    (mkAudioHost dw db dbs).mStartWorkingSemaphore = 0 ∧
    (mkAudioHost dw db dbs).mFinishedWorkSemaphore = 0 ∧
    (mkAudioHost dw db dbs).numWorkerThreads = dw ∧
    (mkAudioHost dw db dbs).numBusyThreads = db ∧
    (mkAudioHost dw db dbs).preferredBufferSize = dbs :=
  ⟨rfl, rfl, rfl, rfl, rfl, rfl, rfl, rfl, rfl, rfl, rfl, rfl, rfl, rfl⟩

/-- Demo cycle parameters: one worker, 64 frames, start time 5, host time 7. -/
def pDemo : RParams := ⟨1, 64, 5, 7⟩

/-- Demo host: one live worker thread, processing not in the driver thread. -/
def hDemo : AudioHost :=
  { mkAudioHost 1 0 512 with mProcessInDriverThread := false, mWorkerThreads := 1 }

/-- Demo host for the zero-worker edge case. -/
def hZero : AudioHost :=
  { mkAudioHost 0 0 512 with mProcessInDriverThread := false }

/-- The demo host once started. -/
def hStarted : AudioHost := (hDemo.start).1

/-- Demo run, after the driver released the start-working semaphore. -/
def sDemo1 : CycleState :=
  { workers := [WStatus.waiting], released := 1, acquired := 0, startSem := 1,
    finishedSem := 0, ended := false, result := none,
    trace := [REvent.recordTime 5, REvent.renderStarted 64, REvent.releaseStart] }

/-- Demo run, after the worker woke up. -/
def sDemo2 : CycleState :=
  { sDemo1 with workers := [WStatus.processing], startSem := 0 }

/-- Demo run, after the worker invoked `Process`. -/
def sDemo3 : CycleState :=
  { sDemo2 with
    workers := [WStatus.signaling]
    trace := sDemo2.trace ++ [REvent.process 0 64] }

/-- Demo run, after the worker posted the finished-work semaphore. -/
def sDemo4 : CycleState :=
  { sDemo3 with
    workers := [WStatus.done]
    finishedSem := 1
    trace := sDemo3.trace ++ [REvent.releaseFinished] }

/-- Demo run, after the driver acquired the finished-work semaphore. -/
def sDemo5 : CycleState :=
  { sDemo4 with
    acquired := 1
    finishedSem := 0
    trace := sDemo4.trace ++ [REvent.acquireFinished] }

/-- Demo run, completed cycle. -/
def sDemo6 : CycleState :=
  { sDemo5 with
    ended := true
    result := some noErr
    trace := sDemo5.trace ++ [REvent.minLoad 5 64, REvent.renderEnded 7 64] }

/-- The completed demo cycle is reachable from the initial cycle state. -/
theorem reachDemo : Reach pDemo sDemo6 := by
  have h0 : Step pDemo (CycleState.init pDemo) sDemo1 :=
    Step.dRelease _ (by decide) (by decide)
  have h1 : Step pDemo sDemo1 sDemo2 := Step.wWake _ 0 (by decide) (by decide)
  have h2 : Step pDemo sDemo2 sDemo3 := Step.wProcess _ 0 (by decide)
  have h3 : Step pDemo sDemo3 sDemo4 := Step.wSignal _ 0 (by decide)
  have h4 : Step pDemo sDemo4 sDemo5 :=
    Step.dAcquire _ (by decide) (by decide) (by decide)
  have h5 : Step pDemo sDemo5 sDemo6 := Step.dEnd _ (by decide) (by decide)
  exact Relation.ReflTransGen.head h0 (Relation.ReflTransGen.head h1
    (Relation.ReflTransGen.head h2 (Relation.ReflTransGen.head h3
      (Relation.ReflTransGen.head h4 (Relation.ReflTransGen.single h5)))))

/-- Witness for C1 at the completed one-worker demo cycle. -/
theorem render_cycle_process_counts_witness :
    (∀ i, i < pDemo.n → sDemo6.trace.count (REvent.process i pDemo.nf) = 1) ∧
    (∀ j, pDemo.n ≤ j → sDemo6.trace.count (REvent.process j pDemo.nf) = 0) ∧
    sDemo6.trace.countP isProcessEvent = pDemo.n ∧
    sDemo6.trace.count REvent.releaseStart = pDemo.n ∧
    sDemo6.trace.count REvent.releaseFinished = pDemo.n :=
  render_cycle_process_counts hDemo pDemo rfl (by decide) rfl reachDemo rfl

/-- Witness for C2 at the completed one-worker demo cycle. -/
theorem render_ended_after_all_process_witness :
    ∃ pre, sDemo6.trace = pre ++ [REvent.renderEnded pDemo.ht pDemo.nf] ∧
      ∀ i, i < pDemo.n → REvent.process i pDemo.nf ∈ pre :=
  render_ended_after_all_process pDemo reachDemo (by decide)

/-- Witness for C3 at the completed one-worker demo cycle. -/
theorem render_cycle_sequence_witness :
    ∃ m, (∀ e ∈ m, isFanEvent e = true) ∧
      sDemo6.trace = REvent.recordTime pDemo.t0
        :: REvent.renderStarted pDemo.nf :: m
        ++ [REvent.minLoad pDemo.t0 pDemo.nf,
            REvent.renderEnded pDemo.ht pDemo.nf] ∧
      sDemo6.result = some noErr :=
  (render_cycle_sequence pDemo).2 sDemo6 reachDemo rfl

/-- Witness for C4 at the stopped demo host. -/
theorem start_invokes_setup_once_witness :
    (hDemo.start).2 = [HostEvent.setupWorkers hDemo.mNumRequestedWorkerThreads,
      HostEvent.setupBusy hDemo.mNumRequestedBusyThreads,
      HostEvent.setupCallback hDemo.mNumRequestedWorkerThreads,
      HostEvent.driverStart] ∧
    (hDemo.start).2.countP isSetupCallback = 1 ∧
    (hDemo.start).1.mWorkerThreads = hDemo.mNumRequestedWorkerThreads ∧
    (hDemo.start).1.mIsStarted = true :=
  start_invokes_setup_once hDemo rfl

/-- Witness for C6 with load 1, sample rate 2, 4 frames, start time 1 and
clock readings 2 and 5: the loop spins once and exits at reading 5. -/
theorem ensureMinimumLoad_spec_witness :
    (0:ℚ) < 1 ∧ (∃ t ∈ ([2, 5] : List ℚ), minimumLoadTarget 1 2 4 ≤ t - 1) ∧
    ∃ t, ([2, 5] : List ℚ)[ensureMinimumLoad 1 2 1 4 [2, 5]]? = some t ∧
      minimumLoadTarget 1 2 4 ≤ t - 1 ∧
      ∀ j, j < ensureMinimumLoad 1 2 1 4 [2, 5] →
        ∃ u, ([2, 5] : List ℚ)[j]? = some u ∧ u - 1 < minimumLoadTarget 1 2 4 := by
  have hex : ∃ t ∈ ([2, 5] : List ℚ), minimumLoadTarget 1 2 4 ≤ t - 1 :=
    ⟨5, by norm_num, by norm_num [minimumLoadTarget]⟩
  exact ⟨one_pos, hex, (ensureMinimumLoad_spec 1 2 1 4 [2, 5]).2.2 one_pos hex⟩

/-- Witness for C7 at the started demo host. -/
theorem stop_joins_all_witness :
    (hStarted.stop).1.mWorkerThreads = 0 ∧ (hStarted.stop).1.mBusyThreads = 0 ∧
    (hStarted.stop).1.mAreWorkerThreadsActive = false ∧
    (hStarted.stop).1.mAreBusyThreadsActive = false ∧
    (hStarted.stop).1.mIsStarted = false ∧
    (hStarted.mIsStarted = true →
      (hStarted.stop).2 = [HostEvent.driverStop,
        HostEvent.teardownWorkers hStarted.mWorkerThreads hStarted.mWorkerThreads,
        HostEvent.teardownBusy hStarted.mBusyThreads]) :=
  stop_joins_all hStarted (by decide)

/-- Witness for C8 at the started demo host: double stop and redundant start. -/
theorem start_stop_idempotent_witness :
    (hStarted.stop).1.stop = ((hStarted.stop).1, []) ∧
    hStarted.start = (hStarted, []) :=
  ⟨(start_stop_idempotent hStarted).1,
   (start_stop_idempotent hStarted).2.2.1 rfl⟩

/-- Witness for C9 at the zero-worker demo host. -/
theorem start_zero_workers_forces_driver_witness :
    (hZero.start).1.renderUsesDriverThread = true ∧
    ∀ p : RParams, ((renderDriverThread p).2.countP isProcessEvent = 1) :=
  start_zero_workers_forces_driver hZero rfl rfl rfl

end AudioPerfLab
